import Mathlib

/-!
# gitsum: diff collection and prompt construction

A shallow embedding of `prompt.go` and `git.go`.

A Go `string` is a finite sequence of bytes: `len` counts bytes and `s[:n]`
slices at a byte offset.  `GoString` is therefore a list of bytes, and the
Lean string literals below are read through their UTF-8 encoding.
-/

namespace Gitsum

/-- A Go string: a sequence of bytes. -/
abbrev GoString := List UInt8

/-- The bytes of a string literal of the source (Go source text is UTF-8). -/
def lit (s : String) : GoString := s.toUTF8.data.toList

/-! ## The parts of the Go standard library used by the source -/

/-- The byte `%`. -/
def pct : UInt8 := 37

/-- Rendering of the operands left over when the format is exhausted
(`%!(EXTRA string=a, string=b)`); the empty text when none is left. -/
def extraArgs : List GoString → GoString
  | [] => []
  | a :: as =>
    lit "%!(EXTRA " ++ List.intercalate (lit ", ") ((a :: as).map (fun x => lit "string=" ++ x))
      ++ lit ")"

/-- The formatting loop of package `fmt` (`doPrintf`) on string-valued operands,
for directives without flags, width or precision: literal bytes are copied,
`%%` writes a percent sign, `%s` and `%v` write the next operand unchanged, and
so does `%w` when `wrapErrs` is set (as `fmt.Errorf` sets it).  A missing operand,
a trailing `%`, left-over operands and any other verb byte are rendered the way
`fmt` reports them.  Flags, width, precision and the verbs `q`, `x`, `X` are not
part of this fragment; no format string of the source uses them. -/
def doPrintf (wrapErrs : Bool) : GoString → List GoString → GoString
  | [], args => extraArgs args
  | c :: rest, args =>
    if c ≠ pct then c :: doPrintf wrapErrs rest args
    else
      match rest with
      | [] => lit "%!(NOVERB)" ++ extraArgs args
      | v :: rest' =>
        if v = pct then pct :: doPrintf wrapErrs rest' args
        else
          match args with
          | [] => lit "%!" ++ [v] ++ lit "(MISSING)" ++ doPrintf wrapErrs rest' []
          | a :: as =>
            if v = 115 ∨ v = 118 ∨ (wrapErrs = true ∧ v = 119) then
              a ++ doPrintf wrapErrs rest' as
            else
              lit "%!" ++ [v] ++ lit "(string=" ++ a ++ lit ")" ++ doPrintf wrapErrs rest' as

/-- Go `fmt.Sprintf` on string operands. -/
def Sprintf (format : GoString) (args : List GoString) : GoString :=
  doPrintf false format args

/-- Go `fmt.Errorf`, as the message of the error it builds. -/
def Errorf (format : GoString) (args : List GoString) : GoString :=
  doPrintf true format args

/-- Go `strings.Index`, scanning from offset `i`: the offset of the first
occurrence of `substr`, or `-1`. -/
def indexFrom (substr : GoString) : GoString → Nat → Int
  | [], i => if substr.isPrefixOf [] then (i : Int) else -1
  | c :: t, i => if substr.isPrefixOf (c :: t) then (i : Int) else indexFrom substr t (i + 1)

/-- Go `strings.Index`. -/
def Index (s substr : GoString) : Int := indexFrom substr s 0

/-- Go `strings.Contains`. -/
def Contains (s substr : GoString) : Bool := decide (Index s substr ≥ 0)

/-- Go `strings.Join`: nothing for no element, the element itself for one, and
otherwise the first element followed by each further one behind a separator. -/
def Join : List GoString → GoString → GoString
  | [], _ => []
  | [e], _ => e
  | e :: es, sep => es.foldl (fun b s => b ++ sep ++ s) e

/-- The UTF-8 encodings of the code points for which Go `unicode.IsSpace` holds:
tab, line feed, vertical tab, form feed, carriage return, space, U+0085, U+00A0,
U+1680, U+2000 to U+200A, U+2028, U+2029, U+202F, U+205F and U+3000.  A decoded
rune is one of these code points exactly when the bytes read are its encoding
here: Go's decoder rejects over-long forms, and an invalid byte decodes to
U+FFFD, which is no space. -/
def spaceSeqs : List GoString :=
  [[0x09], [0x0A], [0x0B], [0x0C], [0x0D], [0x20],
   [0xC2, 0x85], [0xC2, 0xA0], [0xE1, 0x9A, 0x80],
   [0xE2, 0x80, 0x80], [0xE2, 0x80, 0x81], [0xE2, 0x80, 0x82], [0xE2, 0x80, 0x83],
   [0xE2, 0x80, 0x84], [0xE2, 0x80, 0x85], [0xE2, 0x80, 0x86], [0xE2, 0x80, 0x87],
   [0xE2, 0x80, 0x88], [0xE2, 0x80, 0x89], [0xE2, 0x80, 0x8A],
   [0xE2, 0x80, 0xA8], [0xE2, 0x80, 0xA9], [0xE2, 0x80, 0xAF], [0xE2, 0x81, 0x9F],
   [0xE3, 0x80, 0x80]]

/-- Removal of leading white space, one encoded space at a time; `n` bounds the
number of removals. -/
def trimLeftSpace : Nat → GoString → GoString
  | 0, s => s
  | n + 1, s =>
    match spaceSeqs.find? (fun w => w.isPrefixOf s) with
    | some w => trimLeftSpace n (s.drop w.length)
    | none => s

/-- Removal of trailing white space, one encoded space at a time; `n` bounds the
number of removals. -/
def trimRightSpace : Nat → GoString → GoString
  | 0, s => s
  | n + 1, s =>
    match spaceSeqs.find? (fun w => w.isSuffixOf s) with
    | some w => trimRightSpace n (s.take (s.length - w.length))
    | none => s

/-- Go `strings.TrimSpace`: the leading white space is removed first, then the
trailing white space of what remains.  Every removal takes at least one byte, so
the length of the text bounds their number. -/
def TrimSpace (s : GoString) : GoString :=
  let t := trimLeftSpace s.length s
  trimRightSpace t.length t

/-- The loop of Go `strings.genSplit` for a non-empty separator: cut at the first
occurrence of `sep`, continue behind it; `n` bounds the number of cuts. -/
def genSplit (sep : GoString) : Nat → GoString → List GoString
  | 0, s => [s]
  | n + 1, s =>
    let m := Index s sep
    if m < 0 then [s]
    else s.take m.toNat :: genSplit sep n (s.drop (m.toNat + sep.length))

/-- Go `strings.Split(s, sep)` for a non-empty separator (the source splits at
`"\n"` only).  Every cut consumes at least one byte, so the length of `s` bounds
their number.  The empty separator, which explodes `s` into its UTF-8 sequences,
is outside this fragment. -/
def Split (s sep : GoString) : List GoString :=
  if sep = [] then [s] else genSplit sep s.length s

/-! ## prompt.go -/

/-- Constant `MaxDiffChars`. -/
def MaxDiffChars : Nat := 100000

/-- Constant `promptTemplate`. -/
def promptTemplate : GoString := lit
"You are a senior software engineer writing a comprehensive git commit message.

Analyze the following git diff and produce a detailed commit message that thoroughly describes the changes.

Critical rules:
- Use imperative mood (e.g., \"Add feature\" not \"Added feature\")
- First line: specific subject under 72 characters describing the primary change
- Always add a blank line after the subject
- Add 3-8 detailed bullet points describing specific changes:
  - New files/modules added and their purpose
  - Modified functionality and what changed
  - Removed code and why
  - Configuration or infrastructure changes
  - Tests added or updated
  - Documentation updates
- Be SPECIFIC: mention actual file types, functions, APIs, features by name
- Focus on WHAT changed and WHY (business/technical reason), not HOW
- For large changes, group related items together
- Use plain text only, no markdown formatting, code blocks, or quotes

Example structure:
Implement user authentication system

- Add JWT token generation and validation in auth module
- Create user login and registration endpoints
- Implement password hashing with bcrypt
- Add authentication middleware for protected routes
- Create user session management with Redis
- Add comprehensive test suite for auth flows
- Update API documentation with authentication requirements

Diff:
%s"

/-- Function `BuildPrompt`: the prompt and the truncation flag. -/
def BuildPrompt (diff : GoString) : GoString × Bool :=
  let cut : GoString × Bool :=
    if diff.length > MaxDiffChars then (diff.take MaxDiffChars, true) else (diff, false)
  (Sprintf promptTemplate [cut.1], cut.2)

/-- The template up to its `%s` directive. -/
def templatePrefix : GoString := promptTemplate.take (promptTemplate.length - 2)

/-- The marker line that precedes the diff. -/
def diffMarker : GoString := lit "Diff:\n"

/-! ## git.go -/

/-- Type `DiffResult`. -/
structure DiffResult where
  Staged : GoString
  Unstaged : GoString
  Untracked : GoString
deriving DecidableEq

/-- Method `DiffResult.Combined`. -/
def DiffResult.Combined (d : DiffResult) : GoString :=
  let parts : List GoString := []
  let parts := if d.Staged ≠ [] then parts ++ [d.Staged] else parts
  let parts := if d.Unstaged ≠ [] then parts ++ [d.Unstaged] else parts
  let parts := if d.Untracked ≠ [] then parts ++ [d.Untracked] else parts
  Join parts (lit "\n")

/-- Method `DiffResult.IsEmpty`. -/
def DiffResult.IsEmpty (d : DiffResult) : Bool :=
  d.Staged == [] && d.Unstaged == [] && d.Untracked == []

/-- What `(*exec.Cmd).Output` gives back: the standard output, or an
`*exec.ExitError` carrying the captured standard error, or another error
with the text of its `Error()`. -/
inductive CmdOutput where
  | ok (stdout : GoString)
  | exitError (stderr : GoString)
  | failure (msg : GoString)
deriving DecidableEq

/-- The git binary as an oracle: for a working directory and an argument list,
what `Output` gives, and what `CombinedOutput` gives (the bytes written, and the
text of the error when there is one). -/
structure Git where
  output : GoString → List GoString → CmdOutput
  combinedOutput : GoString → List GoString → GoString × Option GoString

/-- A subprocess started by the program: the method used, the working directory
and the arguments. -/
inductive Call where
  | output (dir : GoString) (args : List GoString)
  | combinedOutput (dir : GoString) (args : List GoString)
deriving DecidableEq

/-- Function `runGit`: the text, the error (as its message) and the subprocesses
started. -/
def runGit (git : Git) (dir : GoString) (args : List GoString) :
    (GoString × Option GoString) × List Call :=
  match git.output dir args with
  | .ok out => ((out, none), [Call.output dir args])
  | .exitError stderr =>
    (([], some (Errorf (lit "git %s: %s") [Join args (lit " "), stderr])), [Call.output dir args])
  | .failure msg =>
    (([], some (Errorf (lit "git %s: %w") [Join args (lit " "), msg])), [Call.output dir args])

/-- The loop of `getUntrackedDiff` over the listed files: the fragments collected
and the subprocesses started. -/
def untrackedLoop (git : Git) (dir : GoString) :
    List GoString → List GoString → List GoString × List Call
  | [], diffs => (diffs, [])
  | file :: rest, diffs =>
    let file := TrimSpace file
    if file = [] then untrackedLoop git dir rest diffs
    else
      let args := [lit "diff", lit "--no-index", lit "/dev/null", file]
      let out := (git.combinedOutput dir args).1
      let r := untrackedLoop git dir rest (if out.length > 0 then diffs ++ [out] else diffs)
      (r.1, Call.combinedOutput dir args :: r.2)

/-- Function `getUntrackedDiff`. -/
def getUntrackedDiff (git : Git) (dir : GoString) :
    (GoString × Option GoString) × List Call :=
  match runGit git dir [lit "ls-files", lit "--others", lit "--exclude-standard"] with
  | ((_, some err), tr) => (([], some err), tr)
  | ((files, none), tr) =>
    let files := TrimSpace files
    if files = [] then (([], none), tr)
    else
      let r := untrackedLoop git dir (Split files (lit "\n")) []
      ((Join r.1 (lit "\n"), none), tr ++ r.2)

/-- Function `GetDiff`: the snapshot, the error (as its message) and the
subprocesses started, in order. -/
def GetDiff (git : Git) (dir : GoString) (stagedOnly : Bool) :
    (DiffResult × Option GoString) × List Call :=
  let result : DiffResult := ⟨[], [], []⟩
  match runGit git dir [lit "diff", lit "--cached"] with
  | ((_, some err), t1) => ((result, some (Errorf (lit "getting staged diff: %w") [err])), t1)
  | ((staged, none), t1) =>
    let result := { result with Staged := TrimSpace staged }
    if !stagedOnly then
      match runGit git dir [lit "diff"] with
      | ((_, some err), t2) =>
        ((result, some (Errorf (lit "getting unstaged diff: %w") [err])), t1 ++ t2)
      | ((unstaged, none), t2) =>
        let result := { result with Unstaged := TrimSpace unstaged }
        match getUntrackedDiff git dir with
        | ((_, some err), t3) =>
          ((result, some (Errorf (lit "getting untracked files: %w") [err])), t1 ++ t2 ++ t3)
        | ((untracked, none), t3) =>
          (({ result with Untracked := TrimSpace untracked }, none), t1 ++ t2 ++ t3)
    else ((result, none), t1)

/-! ## main.go -/

/-- The part of `run` between the collection of the diff and the call of
`BuildPrompt`: nothing when `IsEmpty` holds (the program reports that there are no
changes and exits with 0), otherwise the combined text handed to `BuildPrompt`. -/
def runCombined (diff : DiffResult) : Option GoString :=
  if diff.IsEmpty then none else some diff.Combined

/-! ## Sample oracles -/

/-- The staged query. -/
def stagedArgs : List GoString := [lit "diff", lit "--cached"]

/-- The unstaged query. -/
def unstagedArgs : List GoString := [lit "diff"]

/-- The listing of the untracked files. -/
def listArgs : List GoString := [lit "ls-files", lit "--others", lit "--exclude-standard"]

/-- The comparison of one untracked file with the null device. -/
def compareArgs (file : GoString) : List GoString :=
  [lit "diff", lit "--no-index", lit "/dev/null", file]

/-- A git whose every subprocess fails to start, as for a working directory
that does not exist. -/
def missingDirGit : Git where
  output _ _ := .failure (lit "chdir /nonexistent/path: no such file or directory")
  combinedOutput _ _ := ([], some (lit "chdir /nonexistent/path: no such file or directory"))

/-- A git with a staged change whose unstaged query exits with an error. -/
def brokenIndexGit : Git where
  output _ args :=
    if args = stagedArgs then .ok (lit "diff --git a/README.md b/README.md\n+# staged\n")
    else .exitError (lit "fatal: index file corrupt\n")
  combinedOutput _ _ := ([], none)

/-- A git with a staged change, an unstaged change and three untracked files:
`new.txt`, whose comparison writes a fragment and exits with 1, `locked.bin`,
whose comparison fails without output, and `b.txt`. -/
def sampleGit : Git where
  output _ args :=
    if args = stagedArgs then .ok (lit "diff --git a/README.md b/README.md\n+# staged\n")
    else if args = unstagedArgs then .ok (lit "diff --git a/main.go b/main.go\n+x\n")
    else if args = listArgs then .ok (lit "new.txt\n\n locked.bin \nb.txt\n")
    else .exitError (lit "git: unknown command\n")
  combinedOutput _ args :=
    if args = compareArgs (lit "new.txt") then (lit "+new file\n", some (lit "exit status 1"))
    else if args = compareArgs (lit "locked.bin") then ([], some (lit "exit status 128"))
    else if args = compareArgs (lit "b.txt") then (lit "+b\n", some (lit "exit status 1"))
    else ([], some (lit "exit status 129"))

/-! ## Facts about the library fragment -/

theorem doPrintf_literal (w : Bool) (p rest : GoString) (args : List GoString)
    (h : ∀ b ∈ p, b ≠ pct) :
    doPrintf w (p ++ rest) args = p ++ doPrintf w rest args := by
  induction p with
  | nil => rfl
  | cons c p ih =>
    have hc : c ≠ pct := h c (List.mem_cons_self c p)
    have hp : ∀ b ∈ p, b ≠ pct := fun b hb => h b (List.mem_cons_of_mem c hb)
    rw [List.cons_append, doPrintf.eq_def]
    simp only [ne_eq, hc, not_false_eq_true, if_true, ih hp, List.cons_append]

theorem doPrintf_verb_s (w : Bool) (rest a : GoString) (as : List GoString) :
    doPrintf w (pct :: 115 :: rest) (a :: as) = a ++ doPrintf w rest as := by
  have h : (115 : UInt8) ≠ pct := by decide
  simp [doPrintf, h]

theorem doPrintf_verb_w (rest a : GoString) (as : List GoString) :
    doPrintf true (pct :: 119 :: rest) (a :: as) = a ++ doPrintf true rest as := by
  have h : (119 : UInt8) ≠ pct := by decide
  simp [doPrintf, h]

theorem doPrintf_done (w : Bool) : doPrintf w [] [] = [] := by
  simp [doPrintf, extraArgs]

theorem isPrefixOf_append_of_le (m : GoString) :
    ∀ (l X : GoString), m.length ≤ l.length → m.isPrefixOf (l ++ X) = m.isPrefixOf l := by
  induction m with
  | nil => intro l X _; simp
  | cons a m ih =>
    intro l X h
    cases l with
    | nil => simp at h
    | cons b l =>
      have hl : m.length ≤ l.length := by simpa using h
      simp [List.isPrefixOf, ih l X hl]

theorem indexFrom_found_length (m : GoString) :
    ∀ (l : GoString) (i : Nat), indexFrom m l i ≠ -1 → m.length ≤ l.length := by
  intro l
  induction l with
  | nil =>
    intro i h
    cases m with
    | nil => simp
    | cons a m => simp [indexFrom, List.isPrefixOf] at h
  | cons c t ih =>
    intro i h
    by_cases hp : m.isPrefixOf (c :: t) = true
    · exact (List.isPrefixOf_iff_prefix.mp hp).length_le
    · have h2 : indexFrom m t (i + 1) ≠ -1 := by
        simpa [indexFrom, hp] using h
      have := ih (i + 1) h2
      simp only [List.length_cons]
      omega

theorem indexFrom_append (m : GoString) :
    ∀ (l X : GoString) (i : Nat), indexFrom m l i ≠ -1 →
      indexFrom m (l ++ X) i = indexFrom m l i := by
  intro l
  induction l with
  | nil =>
    intro X i h
    cases m with
    | nil => cases X <;> simp [indexFrom]
    | cons a m => simp [indexFrom, List.isPrefixOf] at h
  | cons c t ih =>
    intro X i h
    have hlen : m.length ≤ (c :: t).length := indexFrom_found_length m (c :: t) i h
    have hpre : m.isPrefixOf (c :: (t ++ X)) = m.isPrefixOf (c :: t) :=
      isPrefixOf_append_of_le m (c :: t) X hlen
    by_cases hp : m.isPrefixOf (c :: t) = true
    · simp [indexFrom, hp, hpre]
    · have h2 : indexFrom m t (i + 1) ≠ -1 := by
        simpa [indexFrom, hp] using h
      simp [indexFrom, hp, hpre, ih X (i + 1) h2]

theorem index_append (s X m : GoString) (h : Index s m ≠ -1) :
    Index (s ++ X) m = Index s m :=
  indexFrom_append m s X 0 h

theorem contains_append (s X m : GoString) (h : Contains s m = true) :
    Contains (s ++ X) m = true := by
  unfold Contains at h ⊢
  have h0 : Index s m ≥ 0 := of_decide_eq_true h
  have h1 : Index s m ≠ -1 := by omega
  rw [index_append s X m h1]
  exact h

/-! ## Facts about the prompt template -/

theorem promptTemplate_split : promptTemplate = templatePrefix ++ [pct, 115] := by
  decide!

theorem templatePrefix_no_pct : ∀ b ∈ templatePrefix, b ≠ pct := by
  decide!

theorem templatePrefix_length : templatePrefix.length = 1346 := by
  decide!

theorem templatePrefix_marker : Index templatePrefix diffMarker = 1340 := by
  decide!

theorem diffMarker_length : diffMarker.length = 6 := by
  decide!

theorem sprintf_template (e : GoString) : Sprintf promptTemplate [e] = templatePrefix ++ e := by
  unfold Sprintf
  rw [promptTemplate_split, doPrintf_literal false templatePrefix _ _ templatePrefix_no_pct,
    doPrintf_verb_s, doPrintf_done, List.append_nil]

theorem buildPrompt_eq (T : GoString) :
    BuildPrompt T =
      (templatePrefix ++ (if T.length > MaxDiffChars then T.take MaxDiffChars else T),
        decide (T.length > MaxDiffChars)) := by
  unfold BuildPrompt
  by_cases h : T.length > MaxDiffChars <;> simp [h, sprintf_template]

/-! ## The claims on `BuildPrompt` -/

/-- C1: for every diff text `T` with `len(T) ≤ MaxDiffChars` (the empty text and a
text of exactly 100,000 bytes included), `BuildPrompt(T)` reports no truncation
and returns the template with `T` itself in place of its single `%s` directive:
the template ends in `%s`, has no other `%`, and the prompt is the text before
the directive followed by `T`. -/
theorem buildPrompt_within_limit (T : GoString) (h : T.length ≤ MaxDiffChars) :
    BuildPrompt T = (templatePrefix ++ T, false) ∧
      promptTemplate = templatePrefix ++ lit "%s" ∧
      (∀ b ∈ templatePrefix, b ≠ pct) ∧
      MaxDiffChars = 100000 := by
  have hn : ¬ T.length > MaxDiffChars := by omega
  refine ⟨?_, promptTemplate_split, templatePrefix_no_pct, rfl⟩
  rw [buildPrompt_eq]
  simp [hn]

theorem buildPrompt_within_limit_witness :
    (List.replicate 100000 (121 : UInt8)).length ≤ MaxDiffChars ∧
      BuildPrompt (List.replicate 100000 121) =
        (templatePrefix ++ List.replicate 100000 121, false) ∧
      promptTemplate = templatePrefix ++ lit "%s" ∧
      (∀ b ∈ templatePrefix, b ≠ pct) ∧
      MaxDiffChars = 100000 :=
  ⟨by rw [List.length_replicate]; decide,
    buildPrompt_within_limit (List.replicate 100000 121) (by rw [List.length_replicate]; decide)⟩

/-- C2: for every diff text `T` with `len(T) > MaxDiffChars`, `BuildPrompt(T)`
reports truncation and returns the text of the template before its directive
followed by the first 100,000 characters of `T` and nothing else; a character is
a byte here, the unit of `len` and of the slice `diff[:MaxDiffChars]`. -/
theorem buildPrompt_over_limit (T : GoString) (h : T.length > MaxDiffChars) :
    BuildPrompt T = (templatePrefix ++ T.take 100000, true) ∧
      (T.take 100000).length = 100000 := by
  refine ⟨?_, ?_⟩
  · rw [buildPrompt_eq]
    simp only [h, if_true, decide_True]
    rfl
  · have h2 : 100000 ≤ T.length := by unfold MaxDiffChars at h; omega
    simp [List.length_take, h2]

theorem buildPrompt_over_limit_witness :
    (List.replicate 100100 (120 : UInt8)).length > MaxDiffChars ∧
      BuildPrompt (List.replicate 100100 120) =
        (templatePrefix ++ (List.replicate 100100 120).take 100000, true) ∧
      ((List.replicate 100100 (120 : UInt8)).take 100000).length = 100000 :=
  ⟨by rw [List.length_replicate]; decide,
    buildPrompt_over_limit (List.replicate 100100 120) (by rw [List.length_replicate]; decide)⟩

/-- C4, evaluated on the code: for every diff text the prompt contains
"plain text only", "imperative mood" and "under 72 characters"; for the diff text
"some diff" of the test `TestBuildPrompt_ContainsRules` it does not contain
"under 500 characters", the fourth fragment that the test requires. -/
theorem buildPrompt_rule_fragments :
    (∀ T : GoString,
      Contains (BuildPrompt T).1 (lit "plain text only") = true ∧
      Contains (BuildPrompt T).1 (lit "imperative mood") = true ∧
      Contains (BuildPrompt T).1 (lit "under 72 characters") = true) ∧
    Contains (BuildPrompt (lit "some diff")).1 (lit "under 500 characters") = false := by
  refine ⟨fun T => ?_, by decide!⟩
  rw [buildPrompt_eq]
  exact ⟨contains_append _ _ _ (by decide!), contains_append _ _ _ (by decide!),
    contains_append _ _ _ (by decide!)⟩

/-- C5: for every diff text `T`, the prompt contains the marker `"Diff:\n"`; its
first occurrence is at offset 1340, the end of the template text, and what
follows it is exactly the embedded diff (`T` when `len(T) ≤ MaxDiffChars`,
otherwise the first `MaxDiffChars` bytes of `T`), whatever `T` contains.  The
portion after the marker has length `min(len(T), MaxDiffChars)`, hence exactly
`MaxDiffChars` for a longer `T`. -/
theorem buildPrompt_diff_after_marker (T : GoString) :
    Contains (BuildPrompt T).1 diffMarker = true ∧
      Index (BuildPrompt T).1 diffMarker = 1340 ∧
      (BuildPrompt T).1.drop ((Index (BuildPrompt T).1 diffMarker).toNat + diffMarker.length) =
        (if T.length ≤ MaxDiffChars then T else T.take MaxDiffChars) ∧
      ((BuildPrompt T).1.drop
        ((Index (BuildPrompt T).1 diffMarker).toNat + diffMarker.length)).length =
          min T.length MaxDiffChars := by
  have hidx : ∀ e : GoString, Index (templatePrefix ++ e) diffMarker = 1340 := by
    intro e
    rw [index_append _ _ _ (by rw [templatePrefix_marker]; decide), templatePrefix_marker]
  have hdrop : ∀ e : GoString, (templatePrefix ++ e).drop (1340 + 6) = e := by
    intro e
    have : 1340 + 6 = templatePrefix.length := by rw [templatePrefix_length]
    rw [this, List.drop_left]
  have hp : ∀ S : GoString, (BuildPrompt S).1 =
      templatePrefix ++ (if S.length > MaxDiffChars then S.take MaxDiffChars else S) := by
    intro S
    rw [buildPrompt_eq]
  have hnat : (1340 : Int).toNat = 1340 := rfl
  rw [hp T, hidx, diffMarker_length, hnat, hdrop]
  refine ⟨?_, rfl, ?_, ?_⟩
  · unfold Contains
    rw [hidx]
    decide
  · by_cases h : T.length ≤ MaxDiffChars
    · have hn : ¬ T.length > MaxDiffChars := by omega
      simp [h, hn]
    · have hn : T.length > MaxDiffChars := by omega
      simp [h, hn]
  · by_cases h : T.length ≤ MaxDiffChars
    · have hn : ¬ T.length > MaxDiffChars := by omega
      simp [hn, h]
    · have hn : T.length > MaxDiffChars := by omega
      simp only [hn, if_true, List.length_take]
      omega

/-! ## The claims on `DiffResult` -/

/-- C3: for every snapshot `d`, `d.Combined()` is the non-empty fields among
`Staged`, `Unstaged`, `Untracked`, in that order, with one `"\n"` between
neighbours and none before or after; the all-empty snapshot gives `""`,
`{Staged: "staged content"}` gives `"staged content"` and
`{Staged: "staged", Unstaged: "unstaged"}` gives `"staged\nunstaged"`. -/
theorem combined_joins_nonempty_fields (d : DiffResult) :
    d.Combined =
        List.intercalate (lit "\n")
          ([d.Staged, d.Unstaged, d.Untracked].filter (fun s => decide (s ≠ []))) ∧
      DiffResult.Combined ⟨[], [], []⟩ = [] ∧
      DiffResult.Combined ⟨lit "staged content", [], []⟩ = lit "staged content" ∧
      DiffResult.Combined ⟨lit "staged", lit "unstaged", []⟩ = lit "staged\nunstaged" := by
  refine ⟨?_, by decide!, by decide!, by decide!⟩
  unfold DiffResult.Combined
  by_cases h1 : d.Staged = [] <;> by_cases h2 : d.Unstaged = [] <;>
    by_cases h3 : d.Untracked = [] <;>
    simp [h1, h2, h3, Join, List.intercalate, List.intersperse]

/-- C9: for every snapshot `d`, `d.IsEmpty()` is true exactly when `Staged`,
`Unstaged` and `Untracked` are all the empty string. -/
theorem isEmpty_iff_fields_empty (d : DiffResult) :
    d.IsEmpty = true ↔ d.Staged = [] ∧ d.Unstaged = [] ∧ d.Untracked = [] := by
  simp [DiffResult.IsEmpty, and_assoc]

/-- C10: for every snapshot `d`, `d.IsEmpty()` is true exactly when
`d.Combined()` is the empty string; so `run` goes on to `BuildPrompt` exactly when
`IsEmpty` is false, and the text it hands over is never empty. -/
theorem isEmpty_iff_combined_empty (d : DiffResult) :
    (d.IsEmpty = true ↔ d.Combined = []) ∧
      (runCombined d = none ↔ d.IsEmpty = true) ∧
      runCombined d ≠ some [] := by
  have key : d.IsEmpty = true ↔ d.Combined = [] := by
    have hnl : lit "\n" = [10] := by decide
    unfold DiffResult.IsEmpty DiffResult.Combined
    by_cases h1 : d.Staged = [] <;> by_cases h2 : d.Unstaged = [] <;>
      by_cases h3 : d.Untracked = [] <;>
      simp [h1, h2, h3, Join, hnl]
  refine ⟨key, ?_, ?_⟩
  · unfold runCombined
    by_cases h : d.IsEmpty = true <;> simp [h]
  · unfold runCombined
    by_cases h : d.IsEmpty = true
    · simp [h]
    · have hc : d.Combined ≠ [] := fun hc => h (key.mpr hc)
      simp [h, hc]

/-! ## Facts about `runGit` and the error messages -/

theorem errorf_wrap (p e : GoString) (h : ∀ b ∈ p, b ≠ pct) :
    Errorf (p ++ [pct, 119]) [e] = p ++ e := by
  unfold Errorf
  rw [doPrintf_literal true p _ _ h, doPrintf_verb_w, doPrintf_done, List.append_nil]

theorem errorf_git_exit (j e : GoString) :
    Errorf (lit "git %s: %s") [j, e] = lit "git " ++ (j ++ (lit ": " ++ e)) := by
  have hf : lit "git %s: %s" = lit "git " ++ pct :: 115 :: (lit ": " ++ [pct, 115]) := by decide!
  have h1 : ∀ b ∈ lit "git ", b ≠ pct := by decide!
  have h2 : ∀ b ∈ lit ": ", b ≠ pct := by decide!
  unfold Errorf
  rw [hf, doPrintf_literal true _ _ _ h1, doPrintf_verb_s, doPrintf_literal true _ _ _ h2,
    doPrintf_verb_s, doPrintf_done, List.append_nil]

theorem errorf_git_failure (j e : GoString) :
    Errorf (lit "git %s: %w") [j, e] = lit "git " ++ (j ++ (lit ": " ++ e)) := by
  have hf : lit "git %s: %w" = lit "git " ++ pct :: 115 :: (lit ": " ++ [pct, 119]) := by decide!
  have h1 : ∀ b ∈ lit "git ", b ≠ pct := by decide!
  have h2 : ∀ b ∈ lit ": ", b ≠ pct := by decide!
  unfold Errorf
  rw [hf, doPrintf_literal true _ _ _ h1, doPrintf_verb_s, doPrintf_literal true _ _ _ h2,
    doPrintf_verb_w, doPrintf_done, List.append_nil]

theorem runGit_ok (git : Git) (dir : GoString) (args : List GoString) (out : GoString)
    (h : git.output dir args = .ok out) :
    runGit git dir args = ((out, none), [Call.output dir args]) := by
  simp [runGit, h]

theorem runGit_error (git : Git) (dir : GoString) (args : List GoString) (e : GoString)
    (h : git.output dir args = .exitError e ∨ git.output dir args = .failure e) :
    runGit git dir args =
      (([], some (lit "git " ++ (Join args (lit " ") ++ (lit ": " ++ e)))),
        [Call.output dir args]) := by
  rcases h with h | h
  · simp [runGit, h, errorf_git_exit]
  · simp [runGit, h, errorf_git_failure]

theorem join_stagedArgs : Join stagedArgs (lit " ") = lit "diff --cached" := by decide!

theorem join_unstagedArgs : Join unstagedArgs (lit " ") = lit "diff" := by decide!

theorem errorf_staged (e : GoString) :
    Errorf (lit "getting staged diff: %w") [e] = lit "getting staged diff: " ++ e := by
  have hf : lit "getting staged diff: %w" = lit "getting staged diff: " ++ [pct, 119] := by
    decide!
  rw [hf, errorf_wrap _ _ (by decide!)]

theorem errorf_unstaged (e : GoString) :
    Errorf (lit "getting unstaged diff: %w") [e] = lit "getting unstaged diff: " ++ e := by
  have hf : lit "getting unstaged diff: %w" = lit "getting unstaged diff: " ++ [pct, 119] := by
    decide!
  rw [hf, errorf_wrap _ _ (by decide!)]

/-! ## The claims on `GetDiff` -/

/-- C6: for every directory and every git in which the staged query
`diff --cached` succeeds with output `out`, `GetDiff(dir, true)` returns no error
and the snapshot with `Staged = TrimSpace(out)`, `Unstaged = ""` and
`Untracked = ""`, whatever the other queries would give; the staged query is
the only subprocess started. -/
theorem getDiff_stagedOnly (git : Git) (dir out : GoString)
    (h : git.output dir [lit "diff", lit "--cached"] = .ok out) :
    GetDiff git dir true =
      ((⟨TrimSpace out, [], []⟩, none), [Call.output dir [lit "diff", lit "--cached"]]) := by
  simp [GetDiff, runGit_ok git dir _ out h]

theorem getDiff_stagedOnly_witness :
    sampleGit.output (lit ".") [lit "diff", lit "--cached"] =
        .ok (lit "diff --git a/README.md b/README.md\n+# staged\n") ∧
      GetDiff sampleGit (lit ".") true =
        ((⟨TrimSpace (lit "diff --git a/README.md b/README.md\n+# staged\n"), [], []⟩, none),
          [Call.output (lit ".") [lit "diff", lit "--cached"]]) :=
  ⟨by decide!, getDiff_stagedOnly sampleGit (lit ".") _ (by decide!)⟩

/-- C7: for every directory, when the staged query fails with error text `e`
(the captured standard error of an `*exec.ExitError`, or the text of any other
error), `GetDiff` returns the error `"getting staged diff: git diff --cached: " ++ e`
for either value of `stagedOnly`, and the staged query is the only subprocess
started; when the staged query succeeds, `stagedOnly` is false and the unstaged
query fails with `e`, `GetDiff` returns the error
`"getting unstaged diff: git diff: " ++ e`. -/
theorem getDiff_query_failure (git : Git) (dir e : GoString) :
    (∀ stagedOnly : Bool,
      (git.output dir [lit "diff", lit "--cached"] = .exitError e ∨
        git.output dir [lit "diff", lit "--cached"] = .failure e) →
      GetDiff git dir stagedOnly =
        ((⟨[], [], []⟩, some (lit "getting staged diff: " ++ (lit "git diff --cached: " ++ e))),
          [Call.output dir [lit "diff", lit "--cached"]])) ∧
    (∀ out : GoString,
      git.output dir [lit "diff", lit "--cached"] = .ok out →
      (git.output dir [lit "diff"] = .exitError e ∨ git.output dir [lit "diff"] = .failure e) →
      GetDiff git dir false =
        ((⟨TrimSpace out, [], []⟩,
            some (lit "getting unstaged diff: " ++ (lit "git diff: " ++ e))),
          [Call.output dir [lit "diff", lit "--cached"], Call.output dir [lit "diff"]])) := by
  have hs : lit "git " ++ (Join stagedArgs (lit " ") ++ (lit ": " ++ e)) =
      lit "git diff --cached: " ++ e := by
    have : lit "git diff --cached: " = lit "git " ++ (lit "diff --cached" ++ lit ": ") := by
      decide!
    rw [join_stagedArgs, this]
    simp
  have hu : lit "git " ++ (Join unstagedArgs (lit " ") ++ (lit ": " ++ e)) =
      lit "git diff: " ++ e := by
    have : lit "git diff: " = lit "git " ++ (lit "diff" ++ lit ": ") := by decide!
    rw [join_unstagedArgs, this]
    simp
  refine ⟨?_, ?_⟩
  · intro stagedOnly h
    have hr := runGit_error git dir stagedArgs e h
    rw [hs] at hr
    unfold stagedArgs at hr
    simp [GetDiff, hr, errorf_staged]
  · intro out h1 h2
    have hr1 := runGit_ok git dir stagedArgs out h1
    have hr2 := runGit_error git dir unstagedArgs e h2
    rw [hu] at hr2
    unfold stagedArgs at hr1
    unfold unstagedArgs at hr2
    simp [GetDiff, hr1, hr2, errorf_unstaged]

theorem getDiff_query_failure_witness :
    GetDiff missingDirGit (lit "/nonexistent/path") false =
        ((⟨[], [], []⟩,
            some (lit "getting staged diff: " ++ (lit "git diff --cached: " ++
              lit "chdir /nonexistent/path: no such file or directory"))),
          [Call.output (lit "/nonexistent/path") [lit "diff", lit "--cached"]]) ∧
      GetDiff brokenIndexGit (lit ".") false =
        ((⟨TrimSpace (lit "diff --git a/README.md b/README.md\n+# staged\n"), [], []⟩,
            some (lit "getting unstaged diff: " ++ (lit "git diff: " ++
              lit "fatal: index file corrupt\n"))),
          [Call.output (lit ".") [lit "diff", lit "--cached"],
            Call.output (lit ".") [lit "diff"]]) :=
  ⟨(getDiff_query_failure missingDirGit (lit "/nonexistent/path") _).1 false (Or.inr rfl),
    (getDiff_query_failure brokenIndexGit (lit ".") _).2 _ (by decide!) (Or.inl (by decide!))⟩

/-! ## The claim on `getUntrackedDiff` -/

theorem foldl_join_step (sep : GoString) :
    ∀ (es : List GoString) (e : GoString),
      es.foldl (fun b s => b ++ sep ++ s) e = e ++ (es.map (fun s => sep ++ s)).flatten := by
  intro es
  induction es with
  | nil => intro e; simp
  | cons x xs ih =>
    intro e
    simp only [List.foldl_cons, List.map_cons, List.flatten_cons]
    rw [ih]
    simp [List.append_assoc]

theorem intercalate_cons (sep e : GoString) :
    ∀ es : List GoString,
      List.intercalate sep (e :: es) = e ++ (es.map (fun s => sep ++ s)).flatten := by
  intro es
  induction es generalizing e with
  | nil => simp [List.intercalate, List.intersperse]
  | cons x xs ih =>
    have h := ih x
    simp only [List.intercalate] at h ⊢
    simp [List.intersperse, h]

theorem join_eq_intercalate (l : List GoString) (sep : GoString) :
    Join l sep = List.intercalate sep l := by
  cases l with
  | nil => simp [Join, List.intercalate, List.intersperse]
  | cons e es =>
    rw [intercalate_cons]
    cases es with
    | nil => simp [Join]
    | cons x xs => simp only [Join]; exact foldl_join_step sep (x :: xs) e

theorem untrackedLoop_eq (git : Git) (dir : GoString) :
    ∀ (lines diffs : List GoString),
      untrackedLoop git dir lines diffs =
        (diffs ++
            ((((lines.map TrimSpace).filter (fun f => decide (f ≠ []))).map
              (fun f => (git.combinedOutput dir
                [lit "diff", lit "--no-index", lit "/dev/null", f]).1)).filter
              (fun o => decide (o ≠ []))),
          ((lines.map TrimSpace).filter (fun f => decide (f ≠ []))).map
            (fun f => Call.combinedOutput dir
              [lit "diff", lit "--no-index", lit "/dev/null", f])) := by
  intro lines
  induction lines with
  | nil => intro diffs; simp [untrackedLoop]
  | cons file rest ih =>
    intro diffs
    by_cases hf : TrimSpace file = []
    · simp [untrackedLoop, hf, ih]
    · by_cases ho : (git.combinedOutput dir
          [lit "diff", lit "--no-index", lit "/dev/null", TrimSpace file]).1 = []
      · simp [untrackedLoop, hf, ho, ih]
      · have hpos : 0 < (git.combinedOutput dir
            [lit "diff", lit "--no-index", lit "/dev/null", TrimSpace file]).1.length :=
          List.length_pos.mpr ho
        simp [untrackedLoop, hf, ho, hpos, ih]

/-- C8: for every directory and every git whose listing of the untracked files
succeeds with output `listing`, whatever the per-file comparisons give (bytes,
with or without an error), `getUntrackedDiff` returns no error, and its text is
the `"\n"`-join, in listing order, of the non-empty outputs of the comparisons
of the non-blank trimmed lines of the trimmed listing; the subprocesses started
are the listing and one comparison per such line.  Hence, when the staged and the
unstaged query succeed as well, `GetDiff(dir, false)` returns no error. -/
theorem getUntrackedDiff_best_effort (git : Git) (dir listing : GoString)
    (h : git.output dir [lit "ls-files", lit "--others", lit "--exclude-standard"] =
      .ok listing) :
    let files := ((Split (TrimSpace listing) (lit "\n")).map TrimSpace).filter
      (fun f => decide (f ≠ []))
    let compare := fun f : GoString => [lit "diff", lit "--no-index", lit "/dev/null", f]
    let outs := (files.map (fun f => (git.combinedOutput dir (compare f)).1)).filter
      (fun o => decide (o ≠ []))
    getUntrackedDiff git dir =
        ((List.intercalate (lit "\n") outs, none),
          Call.output dir [lit "ls-files", lit "--others", lit "--exclude-standard"] ::
            files.map (fun f => Call.combinedOutput dir (compare f))) ∧
      (∀ staged unstaged : GoString,
        git.output dir [lit "diff", lit "--cached"] = .ok staged →
        git.output dir [lit "diff"] = .ok unstaged →
        GetDiff git dir false =
          ((⟨TrimSpace staged, TrimSpace unstaged,
              TrimSpace (List.intercalate (lit "\n") outs)⟩, none),
            Call.output dir [lit "diff", lit "--cached"] :: Call.output dir [lit "diff"] ::
              Call.output dir [lit "ls-files", lit "--others", lit "--exclude-standard"] ::
              files.map (fun f => Call.combinedOutput dir (compare f)))) := by
  intro files compare outs
  have hu : getUntrackedDiff git dir =
      ((List.intercalate (lit "\n") outs, none),
        Call.output dir [lit "ls-files", lit "--others", lit "--exclude-standard"] ::
          files.map (fun f => Call.combinedOutput dir (compare f))) := by
    have hr := runGit_ok git dir _ listing h
    by_cases he : TrimSpace listing = []
    · have hsplit : Split ([] : GoString) (lit "\n") = [[]] := by decide!
      have htrim : TrimSpace [] = [] := by decide!
      have hfiles : files = [] := by
        simp only [files, he, hsplit]
        simp [htrim]
      have houts : outs = [] := by simp only [outs, hfiles]; simp
      rw [houts, hfiles]
      simp [getUntrackedDiff, hr, he, List.intercalate, List.intersperse]
    · simp only [getUntrackedDiff, hr, he, if_false, untrackedLoop_eq, List.nil_append,
        join_eq_intercalate]
      rfl
  refine ⟨hu, ?_⟩
  intro staged unstaged hs hd
  have hr1 := runGit_ok git dir _ staged hs
  have hr2 := runGit_ok git dir _ unstaged hd
  simp [GetDiff, hr1, hr2, hu]

theorem getUntrackedDiff_best_effort_witness :
    sampleGit.output (lit ".") [lit "ls-files", lit "--others", lit "--exclude-standard"] =
        .ok (lit "new.txt\n\n locked.bin \nb.txt\n") ∧
      getUntrackedDiff sampleGit (lit ".") =
        ((lit "+new file\n\n+b\n", none),
          [Call.output (lit ".") [lit "ls-files", lit "--others", lit "--exclude-standard"],
            Call.combinedOutput (lit ".") (compareArgs (lit "new.txt")),
            Call.combinedOutput (lit ".") (compareArgs (lit "locked.bin")),
            Call.combinedOutput (lit ".") (compareArgs (lit "b.txt"))]) ∧
      (GetDiff sampleGit (lit ".") false).1.2 = none :=
  ⟨by decide!,
    ((getUntrackedDiff_best_effort sampleGit (lit ".")
      (lit "new.txt\n\n locked.bin \nb.txt\n") (by decide!)).1.trans (by decide!)),
    by
      rw [(getUntrackedDiff_best_effort sampleGit (lit ".")
        (lit "new.txt\n\n locked.bin \nb.txt\n") (by decide!)).2
        (lit "diff --git a/README.md b/README.md\n+# staged\n")
        (lit "diff --git a/main.go b/main.go\n+x\n") (by decide!) (by decide!)]⟩

end Gitsum
